import Mathlib

/-!
Verification development for the DZ34SNI relay server (`src/server.js`).

The server is embedded shallowly: the in-memory JavaScript object stores
become association lists, each Express handler becomes a pure function
from the server state (plus the request) to a response and a new state,
and outbound HTTPS traffic is modelled by an explicit network oracle
`OutCall → NetResult` so that theorems can quantify over upstream
behaviour and witnesses can use concrete mocks.

Machine integers do not occur: all timestamps and sizes are `Nat`
(JavaScript `now - ts > MAX` on a "future" timestamp is negative and
thus not `> MAX`; truncated `Nat` subtraction gives `0`, which agrees).
-/

/-! ## Generic association-list store (JavaScript plain objects) -/

/-- Lookup of a key in an association list (first match wins; states
built by the server's own operations never hold duplicate keys). -/
def lookupA {α : Type} (m : List (String × α)) (k : String) : Option α :=
  match m with
  | [] => none
  | (k', v) :: rest => if k' = k then some v else lookupA rest k

/-- Remove every binding of `k` (JavaScript `delete obj[k]`). -/
def eraseA {α : Type} : List (String × α) → String → List (String × α)
  | [], _ => []
  | p :: rest, k => if p.1 = k then eraseA rest k else p :: eraseA rest k

/-- Overwriting insert (JavaScript `obj[k] = v`). -/
def insertA {α : Type} (m : List (String × α)) (k : String) (v : α) : List (String × α) :=
  (k, v) :: eraseA m k

/-- The keys of an association list are pairwise distinct. -/
def NodupKeys {α : Type} (m : List (String × α)) : Prop :=
  (m.map Prod.fst).Nodup

/-! ## Characters and string helpers

The file avoids brace and quote character literals; they are produced
via `Char.ofNat` (34 = double quote, 39 = single quote, 123/125 = braces). -/

def quoteC : Char := Char.ofNat 34

def apostC : Char := Char.ofNat 39

def lbraceC : Char := Char.ofNat 123

def rbraceC : Char := Char.ofNat 125

/-- Does `l` start with `pat`? -/
def startsW : List Char → List Char → Bool
  | _, [] => true
  | [], _ :: _ => false
  | c :: cs, p :: ps => c = p && startsW cs ps

/-- Consume the literal `pat` from the front of `l`, returning the rest. -/
def consumeLit : List Char → List Char → Option (List Char)
  | l, [] => some l
  | [], _ :: _ => none
  | c :: cs, p :: ps => if c = p then consumeLit cs ps else none

/-- Substring test on character lists (JavaScript `String.includes`). -/
def containsSub : List Char → List Char → Bool
  | [], ps => ps.isEmpty
  | c :: cs, ps => startsW (c :: cs) ps || containsSub cs ps

/-- JavaScript `s.includes(pat)`. -/
def containsSubstr (s pat : String) : Bool :=
  containsSub s.data pat.data

/-- Test whether `s` starts with `pre` (JavaScript `String.startsWith`). -/
def strStartsWith (s pre : String) : Bool :=
  (consumeLit s.data pre.data).isSome

/-- Test whether `s` ends with `suf`. -/
def strEndsWith (s suf : String) : Bool :=
  startsW s.data.reverse suf.data.reverse

/-- ASCII lower-casing of a string (WHATWG URL hostnames are lower-cased). -/
def lowerStr (s : String) : String :=
  ⟨s.data.map Char.toLower⟩

/-- ASCII whitespace (the `\s` class restricted to ASCII). -/
def isTrimWs (c : Char) : Bool :=
  c = ' ' || c = '\t' || c = '\n' || c = '\r' || c = Char.ofNat 12 || c = Char.ofNat 11

/-- JavaScript `String.trim` (ASCII whitespace). -/
def strTrim (s : String) : String :=
  ⟨((s.data.dropWhile isTrimWs).reverse.dropWhile isTrimWs).reverse⟩

/-! ## JSON values

`JSON.parse`/`JSON.stringify` round-trips are modelled by carrying request
and response bodies either as a parsed JSON value (`Body.json`) or as raw
bytes that do not parse as JSON (`Body.raw`). -/

inductive Json where
  | null : Json
  | bool (b : Bool) : Json
  | num (n : Int) : Json
  | str (s : String) : Json
  | arr (xs : List Json) : Json
  | obj (fs : List (String × Json)) : Json
deriving Repr

/-- JavaScript truthiness of a JSON value. -/
def jsTruthy : Json → Bool
  | .null => false
  | .bool b => b
  | .num n => n ≠ 0
  | .str s => s ≠ ""
  | .arr _ => true
  | .obj _ => true

/-- Property read `j[k]` (returns `none` on non-objects, like `undefined`
after the truthiness guards the server uses). -/
def getField : Json → String → Option Json
  | .obj fs, k => lookupA fs k
  | _, _ => none

/-- Replace the binding of `k` in place (key order preserved). -/
def replaceField {α : Type} : List (String × α) → String → α → List (String × α)
  | [], _, _ => []
  | p :: rest, k, v =>
      if p.1 = k then (k, v) :: replaceField rest k v else p :: replaceField rest k v

/-- Property write `j[k] = v`: replace the binding when present, append
otherwise; non-objects are returned unchanged (the server only assigns
under a guard that proved the field present). -/
def setField : Json → String → Json → Json
  | .obj fs, k, v =>
      if (lookupA fs k).isSome then .obj (replaceField fs k v)
      else .obj (fs ++ [(k, v)])
  | j, _, _ => j

/-- Escape a character for JSON string output. -/
def escJsonChar (c : Char) : String :=
  if c = quoteC then "\\" ++ String.singleton quoteC
  else if c = '\\' then "\\\\"
  else String.singleton c

/-- Escape a string for JSON output. -/
def escJson (s : String) : String :=
  String.join (s.data.map escJsonChar)

mutual

/-- Serialization `JSON.stringify` (no spaces, insertion order — as V8 prints). -/
def Json.stringify : Json → String
  | .null => "null"
  | .bool true => "true"
  | .bool false => "false"
  | .num n => toString n
  | .str s => String.singleton quoteC ++ escJson s ++ String.singleton quoteC
  | .arr xs => "[" ++ stringifyArr xs ++ "]"
  | .obj fs => String.singleton lbraceC ++ stringifyObj fs ++ String.singleton rbraceC

def stringifyArr : List Json → String
  | [] => ""
  | [x] => Json.stringify x
  | x :: y :: rest => Json.stringify x ++ "," ++ stringifyArr (y :: rest)

def stringifyObj : List (String × Json) → String
  | [] => ""
  | [(k, v)] =>
      String.singleton quoteC ++ escJson k ++ String.singleton quoteC ++ ":" ++ Json.stringify v
  | (k, v) :: p :: rest =>
      String.singleton quoteC ++ escJson k ++ String.singleton quoteC ++ ":" ++ Json.stringify v
        ++ "," ++ stringifyObj (p :: rest)

end

/-- A request or response body: parsed JSON, or bytes that do not parse. -/
inductive Body where
  | json (j : Json) : Body
  | raw (s : String) : Body
deriving Repr

/-- The byte content of a body (for forwarding and `Content-Length`). -/
def bodyToString : Body → String
  | .json j => j.stringify
  | .raw s => s

/-! ## Data model (server.js lines 62-77) -/

/-- Entry of `tasks[phone]` (server.js lines 116-122). -/
structure WorkItem where
  userId : String
  transactionId : String
  realIp : String
  cookies : String
  userAgent : String
  pageUrl : String
  verificationToken : String
  timestamp : Nat
deriving Repr, DecidableEq

/-- Entry of `results[phone]` (server.js lines 136-143 and 179-184). -/
structure ResultItem where
  event_session_id : String
  status : String
  realIp : String
  timestamp : Nat
  instant : Bool
  preselfieId : Option String
deriving Repr, DecidableEq

/-- One captured proxied exchange (server.js lines 302-312). -/
structure CapturedExchange where
  method : String
  hostname : String
  path : String
  contentType : String
  requestBody : Option Body
  responseStatus : Nat
  responseBody : Body
  responseContentType : String
  timestamp : Nat
deriving Repr

/-- Entry of `captureBuffers[captureSession]` (server.js line 299). -/
structure CaptureBuffer where
  requests : List CapturedExchange
  createdAt : Nat
deriving Repr

/-- Entry of `preSelfies[id]` — a saved recording (server.js lines 360-371). -/
structure PreSelfie where
  id : String
  label : String
  phone : String
  sessionId : String
  captures : List CapturedExchange
  captureCount : Nat
  createdAt : Nat
  lastUsed : Option Nat
  useCount : Nat
  status : String
deriving Repr

/-- Entry of `generatedLinks[linkId]` (server.js line 654). -/
structure GenLink where
  id : String
  label : String
  phone : String
  captureSession : String
  link : String
  used : Bool
  completed : Bool
  preselfieId : Option String
  createdAt : Nat
deriving Repr, DecidableEq

/-- The whole in-memory server state (server.js lines 62-77). -/
structure ServerState where
  tasks : List (String × WorkItem)
  results : List (String × ResultItem)
  phoneIpMap : List (String × String)
  preSelfies : List (String × PreSelfie)
  phonePreselfieMap : List (String × String)
  captureBuffers : List (String × CaptureBuffer)
  generatedLinks : List (String × GenLink)
deriving Repr

def emptyState : ServerState :=
  ⟨[], [], [], [], [], [], []⟩

/-! ## Task / result relay (server.js lines 111-204) -/

/-- Timestamp default `b.timestamp || Date.now()` — a missing or zero timestamp falls back
to the current time. -/
def tsOr (o : Option Nat) (now : Nat) : Nat :=
  match o with
  | some t => if t = 0 then now else t
  | none => now

/-- Body of `POST /task/:phone` (absent fields modelled as `""`/`none`). -/
structure TaskBody where
  userId : String
  transactionId : String
  realIp : String
  cookies : String
  userAgent : String
  pageUrl : String
  verificationToken : String
  timestamp : Option Nat
deriving Repr, DecidableEq

/-- Response of `POST /task/:phone`. -/
structure TaskResponse where
  status : Nat
  ok : Bool
  instant : Bool
  preselfieLabel : Option String
deriving Repr, DecidableEq

/-- A replay launched in the background by the task handler
(server.js line 133): the arguments of the fire-and-forget
`replayPreselfie(...)` call. -/
structure ReplayLaunch where
  preselfieId : String
  userId : String
  transactionId : String
  realIp : String
  phone : String
deriving Repr, DecidableEq

/-- Outcome of `POST /task/:phone`: the HTTP response (computed from the
pre-state alone), the background replay launched — if any — still pending,
and the updated store state. The response being a function of the
pre-state and not of any network oracle is the embedding of
"don't block the response on the replay". -/
structure PostTaskRes where
  response : TaskResponse
  launched : Option ReplayLaunch
  state : ServerState
deriving Repr

/-- The guard of server.js line 129 — `preselfieId && preSelfies[preselfieId]
&& preSelfies[preselfieId].status === 'ready'` — returning the witnessing
binding when it holds. -/
def readyRecording (s : ServerState) (phone : String) : Option (String × PreSelfie) :=
  match lookupA s.phonePreselfieMap phone with
  | some pid =>
    if pid = "" then none
    else
      match lookupA s.preSelfies pid with
      | some ps => if ps.status = "ready" then some (pid, ps) else none
      | none => none
  | none => none

/-- Handler `app.post('/task/:phone')` (server.js lines 111-158), up to sending
the response; the `.then` continuation of the launched replay is modelled
separately by `applyInstantCompletion`. -/
def postTask (s : ServerState) (phone : String) (b : TaskBody) (now : Nat) : PostTaskRes :=
  if b.userId = "" || b.transactionId = "" then
    ⟨⟨400, false, false, none⟩, none, s⟩
  else
    let w : WorkItem :=
      ⟨b.userId, b.transactionId, b.realIp, b.cookies, b.userAgent, b.pageUrl,
        b.verificationToken, tsOr b.timestamp now⟩
    let s2 :=
      { s with
        tasks := insertA s.tasks phone w,
        phoneIpMap :=
          if b.realIp ≠ "" then insertA s.phoneIpMap phone b.realIp else s.phoneIpMap }
    match readyRecording s phone with
    | some (pid, ps) =>
      ⟨⟨200, true, true, some ps.label⟩,
        some ⟨pid, b.userId, b.transactionId, b.realIp, phone⟩, s2⟩
    | none => ⟨⟨200, true, false, none⟩, none, s2⟩

/-- The `.then` continuation of the instant replay (server.js lines
134-149): a truthy session id materialises a ResultItem and retires the
WorkItem; a null result leaves the state unchanged. -/
def applyInstantCompletion (s : ServerState) (phone : String) (preselfieId : String)
    (bRealIp : String) (sessionId : Option String) (now : Nat) : ServerState :=
  match sessionId with
  | some sid =>
    if sid ≠ "" then
      let ip := if bRealIp ≠ "" then bRealIp else (lookupA s.phoneIpMap phone).getD ""
      { s with
        results := insertA s.results phone ⟨sid, "completed", ip, now, true, some preselfieId⟩,
        tasks := eraseA s.tasks phone }
    else s
  | none => s

/-- Handler `GET /task/:phone` (server.js lines 160-168): pure read. -/
def pollTask (s : ServerState) (phone : String) : Option WorkItem :=
  lookupA s.tasks phone

/-- Body of `POST /result/:phone`. -/
structure ResultBody where
  event_session_id : String
  status : String
  realIp : String
  timestamp : Option Nat
deriving Repr, DecidableEq

/-- Outcome of `POST /result/:phone`. -/
structure PostResultRes where
  status : Nat
  ok : Bool
  state : ServerState
deriving Repr

/-- Handler `app.post('/result/:phone')` (server.js lines 174-189). -/
def postResult (s : ServerState) (phone : String) (b : ResultBody) (now : Nat) : PostResultRes :=
  if b.event_session_id = "" then
    ⟨400, false, s⟩
  else
    let r : ResultItem :=
      ⟨b.event_session_id,
        (if b.status = "" then "completed" else b.status),
        (if b.realIp ≠ "" then b.realIp else (lookupA s.phoneIpMap phone).getD ""),
        tsOr b.timestamp now, false, none⟩
    ⟨200, true,
      { s with
        results := insertA s.results phone r,
        tasks := eraseA s.tasks phone }⟩

/-- Handler `GET /result/:phone` (server.js lines 191-194): pure read. -/
def pollResult (s : ServerState) (phone : String) : Option ResultItem :=
  lookupA s.results phone

/-- Handler `DELETE /clear/:phone` (server.js lines 200-204); always replies ok. -/
def clearPhone (s : ServerState) (phone : String) : ServerState :=
  { s with
    tasks := eraseA s.tasks phone,
    results := eraseA s.results phone,
    phoneIpMap := eraseA s.phoneIpMap phone }

/-! ## HTTP plumbing shared by the proxy and the replay engine -/

/-- An upstream HTTPS response, as `proxyRequest` resolves it
(server.js lines 593-598). -/
structure HttpResponse where
  status : Nat
  headers : List (String × String)
  body : Body
deriving Repr

/-- One outbound HTTPS request (the argument of `https.request`). -/
structure OutCall where
  hostname : String
  path : String
  method : String
  headers : List (String × String)
  body : Option String
deriving Repr

/-- What the network does with an outbound call: a response, a socket
error (the `'error'` event), or a timeout (the `'timeout'` event). -/
inductive NetResult where
  | ok (r : HttpResponse) : NetResult
  | netErr (msg : String) : NetResult
  | timeout : NetResult
deriving Repr

/-- A network oracle: the upstream's behaviour, one call at a time. -/
abbrev Net := OutCall → NetResult

def uaHeaderVal : String :=
  "Mozilla/5.0 (Android 13; Mobile; rv:120.0) Gecko/120.0 Firefox/120.0"

def originHeaderVal : String :=
  "https://algeria.blsspainglobal.com"

def refererHeaderVal : String :=
  "https://algeria.blsspainglobal.com/dza/appointment/LivenessRequest"

/-! ## URL resolution (`new URL(targetUrl)` in the proxy handler)

Only the fragment of WHATWG parsing the handler relies on is modelled:
for an `https://` URL, the authority runs to the first `/`, `?` or `#`;
userinfo (up to the last `@`) is dropped; a port suffix must be empty or
digits; the hostname is lower-cased; `pathname + search` is what the
handler forwards (the fragment is dropped, an empty path is `/`). -/

/-- The substring of `l` after the last `@`, or `l` itself. -/
def afterLastAt (l : List Char) : List Char :=
  (l.reverse.takeWhile (fun c => c ≠ '@')).reverse

/-- Parse `https://…`, returning `(hostname, pathname ++ search)`;
`none` models the `new URL` constructor throwing. -/
def parseHttpsUrl (u : String) : Option (String × String) :=
  match consumeLit u.data "https://".data with
  | none => none
  | some rest =>
    let authEnd := fun (c : Char) => c = '/' || c = '?' || c = '#'
    let auth := rest.takeWhile (fun c => ¬ authEnd c)
    let tail := rest.dropWhile (fun c => ¬ authEnd c)
    let hostPort := afterLastAt auth
    let host := hostPort.takeWhile (fun c => c ≠ ':')
    let portPart := hostPort.dropWhile (fun c => c ≠ ':')
    let portOk :=
      match portPart with
      | [] => true
      | _ :: ds => ds.all Char.isDigit
    if host.isEmpty || !portOk then none
    else
      let noFrag := tail.takeWhile (fun c => c ≠ '#')
      let pathPart := noFrag.takeWhile (fun c => c ≠ '?')
      let queryPart := noFrag.dropWhile (fun c => c ≠ '?')
      let pathname := if pathPart.isEmpty then '/' :: [] else pathPart
      let search :=
        match queryPart with
        | [] => []
        | [_] => []
        | q => q
      some (⟨host.map Char.toLower⟩, ⟨pathname ++ search⟩)

/-! ## The rewriting proxy `app.all('/oz-proxy/:phone/*')`
(server.js lines 218-339) -/

/-- An inbound request to the proxy route. `targetPath` is `req.params[0]`,
`search` is `req._parsedUrl.search` (`""` or `?…`), header keys are
lower-case as Express exposes them. -/
structure ProxyReq where
  phone : String
  targetPath : String
  search : String
  method : String
  headers : List (String × String)
  body : Option Body
deriving Repr

/-- Outcome of one proxy invocation: the status sent to the caller, the
outbound call issued upstream (if any), the exchange appended to the
phone's capture buffer (if any), and the updated state. -/
structure ProxyResult where
  status : Nat
  outcall : Option OutCall
  captured : Option CapturedExchange
  state : ServerState
deriving Repr

/-- Outbound header construction (server.js lines 248-264). -/
def proxyHeaders (req : ProxyReq) (host agentIp : String) : List (String × String) :=
  let h0 := [("Host", host), ("User-Agent", uaHeaderVal),
             ("Origin", originHeaderVal), ("Referer", refererHeaderVal)]
  let h1 := h0 ++ (["accept", "accept-language", "content-type"].filterMap
    (fun k => (lookupA req.headers k).map (fun v => (k, v))))
  let h2 :=
    if agentIp ≠ "" then h1 ++ [("X-Forwarded-For", agentIp), ("X-Real-IP", agentIp)]
    else h1
  match req.body with
  | some b => h2 ++ [("Content-Length", toString (bodyToString b).length)]
  | none => h2

/-- Append one completed exchange to the phone's capture buffer,
creating the buffer on first use (server.js lines 298-312). -/
def captureAppend (s : ServerState) (phone : String) (ex : CapturedExchange) (now : Nat) :
    ServerState :=
  let buf := (lookupA s.captureBuffers phone).getD ⟨[], now⟩
  { s with captureBuffers :=
      insertA s.captureBuffers phone ⟨buf.requests ++ [ex], buf.createdAt⟩ }

/-- Handler `app.all('/oz-proxy/:phone/*')`: target validation, the
`ozforensics.com` allow-list test, header substitution, the upstream
call, and — for capture-session phones on POST — appending the exchange
to the capture buffer.  All checks precede the outbound call. -/
def ozProxyStep (s : ServerState) (req : ProxyReq) (net : Net) (now : Nat) : ProxyResult :=
  if req.targetPath = "" then ⟨400, none, none, s⟩
  else
    match parseHttpsUrl ("https://" ++ req.targetPath ++ req.search) with
    | none => ⟨400, none, none, s⟩
    | some (host, fullPath) =>
      if ¬ containsSubstr host "ozforensics.com" then ⟨403, none, none, s⟩
      else
        let agentIp := (lookupA s.phoneIpMap req.phone).getD ""
        let call : OutCall :=
          ⟨host, fullPath, req.method, proxyHeaders req host agentIp,
            req.body.map bodyToString⟩
        match net call with
        | .netErr _ => ⟨502, some call, none, s⟩
        | .timeout => ⟨504, some call, none, s⟩
        | .ok r =>
          if strStartsWith req.phone "preselfie_" && req.method == "POST" then
            let ex : CapturedExchange :=
              ⟨req.method, host, fullPath,
                (lookupA req.headers "content-type").getD "",
                req.body, r.status, r.body,
                (lookupA r.headers "content-type").getD "", now⟩
            ⟨r.status, some call, some ex, captureAppend s req.phone ex now⟩
          else ⟨r.status, some call, none, s⟩

/-! ## Saving a capture: `app.post('/api/preselfie/save')`
(server.js lines 346-386) -/

/-- Outcome of the save endpoint: status, `some (id, captureCount)` on
success, and the new state. -/
structure SaveRes where
  status : Nat
  saved : Option (String × Nat)
  state : ServerState
deriving Repr

/-- Save endpoint `finalizeCapture`: requires a non-empty capture buffer, produces a
ready `PreSelfie`, optionally binds the phone, marks the generating link
completed and deletes the source buffer.  The random `ps_…` identifier is
supplied as `freshId`. -/
def preselfieSave (s : ServerState) (captureSession label phone sessionId linkId : String)
    (freshId : String) (now : Nat) : SaveRes :=
  if captureSession = "" || label = "" then ⟨400, none, s⟩
  else
    match lookupA s.captureBuffers captureSession with
    | none => ⟨400, none, s⟩
    | some buf =>
      if buf.requests.isEmpty then ⟨400, none, s⟩
      else
        let ps : PreSelfie :=
          ⟨freshId, strTrim label, strTrim phone, sessionId, buf.requests,
            buf.requests.length, now, none, 0, "ready"⟩
        ⟨200, some (freshId, buf.requests.length),
          { s with
            preSelfies := insertA s.preSelfies freshId ps,
            phonePreselfieMap :=
              if phone ≠ "" then insertA s.phonePreselfieMap (strTrim phone) freshId
              else s.phonePreselfieMap,
            generatedLinks :=
              if linkId ≠ "" then
                match lookupA s.generatedLinks linkId with
                | some L =>
                  insertA s.generatedLinks linkId
                    { L with completed := true, preselfieId := some freshId }
                | none => s.generatedLinks
              else s.generatedLinks,
            captureBuffers := eraseA s.captureBuffers captureSession }⟩

/-! ## The replay engine `replayPreselfie` (server.js lines 467-581) -/

/-- Whitespace class of the JavaScript regex `\s` (ASCII part). -/
def isJsWs (c : Char) : Bool :=
  c = ' ' || c = '\t' || c = '\n' || c = '\r' || c = Char.ofNat 12 || c = Char.ofNat 11

/-- A single or double quote. -/
def isQuoteC (c : Char) : Bool :=
  c = quoteC || c = apostC

/-- Characters allowed in the value part of the multipart rewrite regex:
the complement of `["'\r\n&}]`. -/
def isKvValC (c : Char) : Bool :=
  ¬ (isQuoteC c || c = '\r' || c = '\n' || c = '&' || c = rbraceC)

/-- Case-insensitively consume the literal `pat`, returning the rest. -/
def consumeLitCI : List Char → List Char → Option (List Char)
  | l, [] => some l
  | [], _ :: _ => none
  | c :: cs, p :: ps => if c.toLower = p.toLower then consumeLitCI cs ps else none

/-- Try the regex `(field["']?\s*[:=]\s*["']?)[^"'\r\n&}]+` at the head of
`l`; on success return the text of capture group 1 and the rest of the
input after the whole match. -/
def matchKv (field : List Char) (l : List Char) : Option (List Char × List Char) :=
  match consumeLitCI l field with
  | none => none
  | some r1 =>
    let q1r := match r1 with
      | c :: rest => if isQuoteC c then ([c], rest) else (([] : List Char), r1)
      | [] => ([], r1)
    let ws1 := q1r.2.takeWhile isJsWs
    let r3 := q1r.2.dropWhile isJsWs
    match r3 with
    | [] => none
    | c :: r4 =>
      if c = ':' || c = '=' then
        let ws2 := r4.takeWhile isJsWs
        let r5 := r4.dropWhile isJsWs
        let q2r := match r5 with
          | d :: rest => if isQuoteC d then ([d], rest) else (([] : List Char), r5)
          | [] => ([], r5)
        let v := q2r.2.takeWhile isKvValC
        let r7 := q2r.2.dropWhile isKvValC
        if v.isEmpty then none
        else some (l.take field.length ++ q1r.1 ++ ws1 ++ [c] ++ ws2 ++ q2r.1, r7)
      else none

/-- Global regex replacement `body.replace(/(field…)[^…]+/gi, '$1' + nv)`:
scan left to right, replace each match with its group 1 followed by the
new value, resume after the match.  `fuel` bounds the recursion; the
initial call passes the input length, which suffices because every match
consumes at least one character. -/
def kvSubstAux (field nv : List Char) : Nat → List Char → List Char
  | 0, l => l
  | _ + 1, [] => []
  | fuel + 1, c :: rest =>
    match matchKv field (c :: rest) with
    | some (g1, after) => g1 ++ nv ++ kvSubstAux field nv fuel after
    | none => c :: kvSubstAux field nv fuel rest

/-- The multipart-body substitution of one field (server.js lines 508-509). -/
def kvSubstStr (field nv s : String) : String :=
  ⟨kvSubstAux field.data nv.data s.data.length s.data⟩

/-- Conditional write `if (obj[key]) obj[key] = nv` — replace one field when it is present
and truthy. -/
def substField (j : Json) (key : String) (nv : String) : Json :=
  match getField j key with
  | some v => if jsTruthy v then setField j key (.str nv) else j
  | none => j

/-- The `meta` block of server.js lines 491-494: when `meta` is truthy,
substitute `user_id` then `transaction_id` inside it. -/
def substMetaStep (j : Json) (nU nT : String) : Json :=
  match getField j "meta" with
  | some m =>
    if jsTruthy m then
      setField j "meta" (substField (substField m "user_id" nU) "transaction_id" nT)
    else j
  | none => j

/-- The structured-body substitution (server.js lines 489-497): replace
`user_id`/`transaction_id` directly under `meta`, then at top level —
each only when present and truthy. -/
def substCorrelation (j : Json) (nU nT : String) : Json :=
  substField (substField (substMetaStep j nU nT) "user_id" nU) "transaction_id" nT

/-- Rebuild the request body of a retained exchange (server.js lines
485-511): JSON bodies get the structured substitution when the recorded
content type mentions `json`; then, when it mentions `multipart`, the
key=value regex substitution runs over the byte string. -/
def rebuildBody (cap : CapturedExchange) (nU nT : String) : Option String :=
  match cap.requestBody with
  | none => none
  | some b =>
    let b1 : Body :=
      if containsSubstr cap.contentType "json" then
        match b with
        | .json j => .json (substCorrelation j nU nT)
        | .raw s => .raw s
      else b
    let s1 := bodyToString b1
    if containsSubstr cap.contentType "multipart" then
      some (kvSubstStr "transaction_id" nT (kvSubstStr "user_id" nU s1))
    else some s1

/-- Replay-side header construction (server.js lines 514-526). -/
def replayHeaders (cap : CapturedExchange) (nIp : String) (bodyS : Option String) :
    List (String × String) :=
  let h0 := [("Host", cap.hostname), ("User-Agent", uaHeaderVal),
             ("Origin", originHeaderVal), ("Referer", refererHeaderVal)]
  let h1 := if cap.contentType ≠ "" then h0 ++ [("Content-Type", cap.contentType)] else h0
  let h2 := if nIp ≠ "" then h1 ++ [("X-Forwarded-For", nIp), ("X-Real-IP", nIp)] else h1
  match bodyS with
  | some b => h2 ++ [("Content-Length", toString b.length)]
  | none => h2

/-- The outbound call a retained exchange is re-issued as. -/
def replayCall (cap : CapturedExchange) (nU nT nIp : String) : OutCall :=
  let bodyS := rebuildBody cap nU nT
  ⟨cap.hostname, cap.path, cap.method, replayHeaders cap nIp bodyS, bodyS⟩

/-- The literal `"event_session_id"` (with its quotes). -/
def esidLit : List Char :=
  quoteC :: "event_session_id".data ++ [quoteC]

/-- Try `"event_session_id"\s*:\s*"([^"]+)"` at the head of `l`. -/
def matchEsid (l : List Char) : Option String :=
  match consumeLit l esidLit with
  | none => none
  | some r1 =>
    let r2 := r1.dropWhile isJsWs
    match r2 with
    | [] => none
    | c :: r3 =>
      if c = ':' then
        let r4 := r3.dropWhile isJsWs
        match r4 with
        | [] => none
        | d :: r5 =>
          if d = quoteC then
            let v := r5.takeWhile (fun x => x ≠ quoteC)
            let r6 := r5.dropWhile (fun x => x ≠ quoteC)
            match r6 with
            | [] => none
            | _ :: _ => if v.isEmpty then none else some ⟨v⟩
          else none
      else none

/-- First match of the regex anywhere in the list. -/
def findEsidAux : List Char → Option String
  | [] => none
  | c :: cs =>
    match matchEsid (c :: cs) with
    | some v => some v
    | none => findEsidAux cs

/-- Regex search `bodyStr.match(/"event_session_id"\s*:\s*"([^"]+)"/)` — the fallback
scan used when the response is not JSON (server.js lines 555-557). -/
def findEsid (s : String) : Option String :=
  findEsidAux s.data

/-- Scan one re-issued response for a session token (server.js lines
540-559): a truthy top-level `event_session_id` overwrites the
accumulator; `session_id` is taken only when the accumulator is still
falsy; a truthy `data.event_session_id` overwrites; non-JSON bodies fall
back to the regex scan, whose match overwrites. -/
def scanResponse (acc : Option Json) (rb : Body) : Option Json :=
  match rb with
  | .json j =>
    let a1 :=
      match getField j "event_session_id" with
      | some v => if jsTruthy v then some v else acc
      | none => acc
    let accTruthy := match a1 with | some t => jsTruthy t | none => false
    let a2 :=
      match getField j "session_id" with
      | some v => if jsTruthy v && !accTruthy then some v else a1
      | none => a1
    match getField j "data" with
    | some d =>
      if jsTruthy d then
        match getField d "event_session_id" with
        | some v => if jsTruthy v then some v else a2
        | none => a2
      else a2
    | none => a2
  | .raw s =>
    match findEsid s with
    | some tok => some (.str tok)
    | none => acc

/-- The replay loop (server.js lines 477-568): skip non-POST exchanges;
rebuild and re-issue each retained one; a network failure on one call is
caught and the loop continues; successful responses update the token
accumulator via `scanResponse`. -/
def replayCore (nU nT nIp : String) (net : Net) :
    List CapturedExchange → Option Json → Option Json
  | [], acc => acc
  | cap :: rest, acc =>
    if cap.method ≠ "POST" then replayCore nU nT nIp net rest acc
    else
      match net (replayCall cap nU nT nIp) with
      | .ok r => replayCore nU nT nIp net rest (scanResponse acc r.body)
      | .netErr _ => replayCore nU nT nIp net rest acc
      | .timeout => replayCore nU nT nIp net rest acc

/-- Result of `replayPreselfie`: the token (or `none` for "absent") and
the recording with its usage stats updated. -/
structure ReplayRes where
  token : Option Json
  recording : PreSelfie
deriving Repr

/-- Engine entry `replayPreselfie` (server.js lines 467-581): throws on a missing or
empty capture list; otherwise replays the sequence and — token or not —
bumps `useCount` and `lastUsed` before returning the last token found. -/
def replayPreselfie (ps : PreSelfie) (nU nT nIp : String) (net : Net) (now : Nat) :
    Except String ReplayRes :=
  if ps.captures.isEmpty then .error "No capture data"
  else
    .ok ⟨replayCore nU nT nIp net ps.captures none,
      { ps with lastUsed := some now, useCount := ps.useCount + 1 }⟩

/-! ## The eviction sweep (server.js lines 79-105) -/

def MAX_TASK : Nat := 30 * 60 * 1000

def MAX_PRESELFIE : Nat := 7 * 24 * 60 * 60 * 1000

/-- One tick of the 5-minute cleanup interval: tasks, results and capture
buffers expire after `MAX_TASK`; recordings and generated links after
`MAX_PRESELFIE`; an expiring task also deletes the phone's IP
association, and an expiring recording deletes every phone binding that
points to it. -/
def sweepTick (now : Nat) (s : ServerState) : ServerState :=
  { tasks := s.tasks.filter (fun p => !decide (now - p.2.timestamp > MAX_TASK)),
    results := s.results.filter (fun p => !decide (now - p.2.timestamp > MAX_TASK)),
    phoneIpMap := s.phoneIpMap.filter (fun p =>
      match lookupA s.tasks p.1 with
      | some t => !decide (now - t.timestamp > MAX_TASK)
      | none => true),
    preSelfies := s.preSelfies.filter (fun p => !decide (now - p.2.createdAt > MAX_PRESELFIE)),
    phonePreselfieMap := s.phonePreselfieMap.filter (fun p =>
      match lookupA s.preSelfies p.2 with
      | some ps => !decide (now - ps.createdAt > MAX_PRESELFIE)
      | none => true),
    captureBuffers := s.captureBuffers.filter (fun p =>
      !decide (now - p.2.createdAt > MAX_TASK)),
    generatedLinks := s.generatedLinks.filter (fun p =>
      !decide (now - p.2.createdAt > MAX_PRESELFIE)) }

/-- Iterated sweep ticks. -/
def sweepMany (ns : List Nat) (s : ServerState) : ServerState :=
  ns.foldl (fun st n => sweepTick n st) s

/-! ## Association-list lemmas -/

theorem lookupA_insert_self {α : Type} (m : List (String × α)) (k : String) (v : α) :
    lookupA (insertA m k v) k = some v := by
  simp [insertA, lookupA]

theorem lookupA_erase_self {α : Type} (m : List (String × α)) (k : String) :
    lookupA (eraseA m k) k = none := by
  induction m with
  | nil => rfl
  | cons p rest ih =>
    obtain ⟨a, v⟩ := p
    by_cases hp : a = k
    · simpa [eraseA, hp] using ih
    · simpa [eraseA, lookupA, hp] using ih

theorem lookupA_erase_ne {α : Type} (m : List (String × α)) (k k' : String)
    (h : k' ≠ k) : lookupA (eraseA m k) k' = lookupA m k' := by
  induction m with
  | nil => rfl
  | cons p rest ih =>
    obtain ⟨a, v⟩ := p
    by_cases hp : a = k
    · subst hp
      have hne : ¬ a = k' := fun hv => h hv.symm
      simpa [eraseA, lookupA, hne] using ih
    · by_cases hk : a = k'
      · subst hk
        simp [eraseA, lookupA, hp, h]
      · simpa [eraseA, lookupA, hp, hk] using ih

theorem lookupA_insert_ne {α : Type} (m : List (String × α)) (k k' : String) (v : α)
    (h : k' ≠ k) : lookupA (insertA m k v) k' = lookupA m k' := by
  have : ¬ k = k' := fun hv => h hv.symm
  simp [insertA, lookupA, this, lookupA_erase_ne m k k' h]

theorem lookupA_mem {α : Type} {m : List (String × α)} {k : String} {v : α}
    (h : lookupA m k = some v) : (k, v) ∈ m := by
  induction m with
  | nil => simp [lookupA] at h
  | cons p rest ih =>
    obtain ⟨a, w⟩ := p
    by_cases hp : a = k
    · subst hp
      have hw : w = v := by simpa [lookupA] using h
      subst hw
      exact List.mem_cons_self _ _
    · have h' : lookupA rest k = some v := by simpa [lookupA, hp] using h
      exact List.mem_cons_of_mem _ (ih h')

theorem lookupA_filter_keep {α : Type} (q : String × α → Bool) (m : List (String × α))
    (k : String) (v : α) (hl : lookupA m k = some v) (hq : q (k, v) = true) :
    lookupA (m.filter q) k = some v := by
  induction m with
  | nil => simp [lookupA] at hl
  | cons p rest ih =>
    obtain ⟨a, w⟩ := p
    by_cases hp : a = k
    · subst hp
      have hw : w = v := by simpa [lookupA] using hl
      subst hw
      simp [List.filter_cons, hq, lookupA]
    · have hl' : lookupA rest k = some v := by simpa [lookupA, hp] using hl
      by_cases hqp : q (a, w) = true
      · simp [List.filter_cons, hqp, lookupA, hp, ih hl']
      · simp only [Bool.not_eq_true] at hqp
        simp [List.filter_cons, hqp, ih hl']

theorem lookupA_filter_prop {α : Type} (q : String × α → Bool) (m : List (String × α))
    (k : String) (v : α) (hl : lookupA (m.filter q) k = some v) : q (k, v) = true := by
  have hm := lookupA_mem hl
  exact (List.mem_filter.mp hm).2

theorem lookupA_none_of_not_key {α : Type} (m : List (String × α)) (k : String)
    (h : k ∉ m.map Prod.fst) : lookupA m k = none := by
  induction m with
  | nil => rfl
  | cons p rest ih =>
    obtain ⟨a, w⟩ := p
    simp only [List.map_cons, List.mem_cons] at h
    push_neg at h
    have : ¬ a = k := fun hv => h.1 hv.symm
    simp [lookupA, this, ih h.2]

theorem lookupA_filter_none_of_none {α : Type} (q : String × α → Bool)
    (m : List (String × α)) (k : String) (h : lookupA m k = none) :
    lookupA (m.filter q) k = none := by
  induction m with
  | nil => rfl
  | cons p rest ih =>
    obtain ⟨a, w⟩ := p
    by_cases hp : a = k
    · simp [lookupA, hp] at h
    · have h' : lookupA rest k = none := by simpa [lookupA, hp] using h
      by_cases hqp : q (a, w) = true
      · simp [List.filter_cons, hqp, lookupA, hp, ih h']
      · simp only [Bool.not_eq_true] at hqp
        simp [List.filter_cons, hqp, ih h']

theorem lookupA_filter_none {α : Type} (q : String × α → Bool) (m : List (String × α))
    (k : String) (v : α) (hn : NodupKeys m) (hl : lookupA m k = some v)
    (hq : q (k, v) = false) : lookupA (m.filter q) k = none := by
  induction m with
  | nil => simp [lookupA] at hl
  | cons p rest ih =>
    obtain ⟨a, w⟩ := p
    have hn' : NodupKeys rest := (List.nodup_cons.mp hn).2
    by_cases hp : a = k
    · subst hp
      have hw : w = v := by simpa [lookupA] using hl
      subst hw
      have hrest : lookupA rest a = none := by
        apply lookupA_none_of_not_key
        simpa using (List.nodup_cons.mp hn).1
      simp [List.filter_cons, hq, lookupA_filter_none_of_none _ _ _ hrest]
    · have hl' : lookupA rest k = some v := by simpa [lookupA, hp] using hl
      by_cases hqp : q (a, w) = true
      · simp [List.filter_cons, hqp, lookupA, hp, ih hn' hl']
      · simp only [Bool.not_eq_true] at hqp
        simp [List.filter_cons, hqp, ih hn' hl']

theorem lookupA_filter_none_keyonly {α : Type} (q : String × α → Bool)
    (m : List (String × α)) (k : String) (h : ∀ v, q (k, v) = false) :
    lookupA (m.filter q) k = none := by
  induction m with
  | nil => rfl
  | cons p rest ih =>
    obtain ⟨a, w⟩ := p
    by_cases hp : a = k
    · subst hp
      simp [List.filter_cons, h w, ih]
    · by_cases hqp : q (a, w) = true
      · simp [List.filter_cons, hqp, lookupA, hp, ih]
      · simp only [Bool.not_eq_true] at hqp
        simp [List.filter_cons, hqp, ih]

theorem eraseA_idem {α : Type} (m : List (String × α)) (k : String) :
    eraseA (eraseA m k) k = eraseA m k := by
  induction m with
  | nil => rfl
  | cons p rest ih =>
    obtain ⟨a, v⟩ := p
    by_cases hp : a = k
    · simpa [eraseA, hp] using ih
    · simp [eraseA, hp, ih]

/-! ## Claim C9 — clear -/

/-- C9: for every key and every prior state, `DELETE /clear/:phone`
deletes the WorkItem, the ResultItem and the IpAssociation for the key —
afterwards `pollTask` and `pollResult` both return absent — and it is
idempotent: clearing again yields the identical state (and the handler
always replies ok, which the model encodes by `clearPhone` being total). -/
theorem clear_deletes_and_idempotent (s : ServerState) (phone : String) :
    pollTask (clearPhone s phone) phone = none ∧
    pollResult (clearPhone s phone) phone = none ∧
    lookupA (clearPhone s phone).phoneIpMap phone = none ∧
    clearPhone (clearPhone s phone) phone = clearPhone s phone := by
  refine ⟨?_, ?_, ?_, ?_⟩
  · exact lookupA_erase_self s.tasks phone
  · exact lookupA_erase_self s.results phone
  · exact lookupA_erase_self s.phoneIpMap phone
  · simp [clearPhone, eraseA_idem]

/-! ## Claim C3 — postResult -/

/-- C3: `postResult(k, t)` replies 400 leaving the state unchanged when
the token is empty/missing; with a non-empty token it replies ok, stores
a ResultItem whose `event_session_id` is `t`, and deletes the WorkItem
for `k`, so `pollTask k` returns absent and `pollResult k` returns the
item containing `t`. -/
theorem postResult_validates_and_stores (s : ServerState) (phone : String) (b : ResultBody)
    (now : Nat) :
    (b.event_session_id = "" → postResult s phone b now = ⟨400, false, s⟩) ∧
    (b.event_session_id ≠ "" →
      (postResult s phone b now).status = 200 ∧
      (postResult s phone b now).ok = true ∧
      pollTask (postResult s phone b now).state phone = none ∧
      ∃ r, pollResult (postResult s phone b now).state phone = some r ∧
        r.event_session_id = b.event_session_id) := by
  constructor
  · intro h
    simp [postResult, h]
  · intro h
    refine ⟨by simp [postResult, h], by simp [postResult, h], ?_, ?_⟩
    · show lookupA (postResult s phone b now).state.tasks phone = none
      simp only [postResult, if_neg h]
      exact lookupA_erase_self s.tasks phone
    · refine ⟨⟨b.event_session_id,
        (if b.status = "" then "completed" else b.status),
        (if b.realIp ≠ "" then b.realIp else (lookupA s.phoneIpMap phone).getD ""),
        tsOr b.timestamp now, false, none⟩, ?_, rfl⟩
      show lookupA (postResult s phone b now).state.results phone = some _
      simp only [postResult, if_neg h]
      exact lookupA_insert_self s.results phone _

/-- Witness for C3 at concrete inputs: a posted task for key `777` is
retired by a result `tok7`, which `pollResult` then returns; an empty
token is rejected with 400 and no state change. -/
theorem postResult_validates_and_stores_witness :
    (postResult emptyState "777" ⟨"", "completed", "", none⟩ 3 = ⟨400, false, emptyState⟩) ∧
    pollTask (postResult ((postTask emptyState "777"
        ⟨"u", "t", "", "", "", "", "", none⟩ 0).state) "777"
        ⟨"tok7", "", "", none⟩ 3).state "777" = none ∧
    ∃ r, pollResult (postResult ((postTask emptyState "777"
        ⟨"u", "t", "", "", "", "", "", none⟩ 0).state) "777"
        ⟨"tok7", "", "", none⟩ 3).state "777" = some r ∧
      r.event_session_id = "tok7" := by
  refine ⟨?_, ?_, ?_⟩
  · exact (postResult_validates_and_stores emptyState "777" ⟨"", "completed", "", none⟩ 3).1 rfl
  · exact ((postResult_validates_and_stores _ "777" ⟨"tok7", "", "", none⟩ 3).2
      (by decide)).2.2.1
  · exact ((postResult_validates_and_stores _ "777" ⟨"tok7", "", "", none⟩ 3).2
      (by decide)).2.2.2

/-! ## Claim C2 — task/result exclusivity -/

/-- The state reached by posting a result for key `555` and then
submitting a new task for the same key. -/
def c2Trace : ServerState :=
  (postTask (postResult emptyState "555" ⟨"tok", "", "", none⟩ 0).state
    "555" ⟨"u1", "t1", "", "", "", "", "", none⟩ 5).state

/-- C2 counterexample: the mutual-exclusion invariant fails on a
reachable state — after `postResult("555", "tok")` followed by
`submitTask("555", …)`, the key `555` has BOTH a live WorkItem and a
ResultItem, because the task handler never deletes an existing result. -/
theorem c2_both_present :
    (lookupA c2Trace.tasks "555").isSome = true ∧
    (lookupA c2Trace.results "555").isSome = true := by
  exact ⟨rfl, rfl⟩

/-- C2 (amended): posting a result retires the WorkItem — immediately
after `postResult(k, t)` no live WorkItem exists for `k` while the
ResultItem does — but the reverse exclusion does not hold: submitting a
task never deletes an existing ResultItem for the key, so a live
WorkItem and a ResultItem can coexist. -/
theorem postResult_retires_workitem (s : ServerState) (phone : String) (b : ResultBody)
    (now : Nat) (h : b.event_session_id ≠ "") :
    pollTask (postResult s phone b now).state phone = none ∧
    (pollResult (postResult s phone b now).state phone).isSome = true ∧
    ∀ (s' : ServerState) (p : String) (tb : TaskBody) (n : Nat),
      (postTask s' p tb n).state.results = s'.results := by
  refine ⟨?_, ?_, ?_⟩
  · show lookupA (postResult s phone b now).state.tasks phone = none
    simp only [postResult, if_neg h]
    exact lookupA_erase_self s.tasks phone
  · show (lookupA (postResult s phone b now).state.results phone).isSome = true
    simp only [postResult, if_neg h]
    rw [lookupA_insert_self]
    rfl
  · intro s' p tb n
    simp only [postTask]
    repeat' split
    all_goals rfl

/-- Witness for C2 (amended) at concrete inputs. -/
theorem postResult_retires_workitem_witness :
    pollTask (postResult emptyState "555" ⟨"tok", "", "", none⟩ 0).state "555" = none ∧
    (pollResult (postResult emptyState "555" ⟨"tok", "", "", none⟩ 0).state "555").isSome
      = true := by
  have h := postResult_retires_workitem emptyState "555" ⟨"tok", "", "", none⟩ 0 (by decide)
  exact ⟨h.1, h.2.1⟩

/-! ## Claim C4 — submitTask instant flag -/

/-- Guard `readyRecording` succeeds exactly when a recording with status
`ready` is bound to the key (excluding a binding to the empty id, which
JavaScript truthiness treats as unbound). -/
theorem readyRecording_isSome_iff (s : ServerState) (phone : String)
    (hid : lookupA s.phonePreselfieMap phone ≠ some "") :
    (readyRecording s phone).isSome = true ↔
      ∃ pid ps, lookupA s.phonePreselfieMap phone = some pid ∧
        lookupA s.preSelfies pid = some ps ∧ ps.status = "ready" := by
  constructor
  · intro h
    unfold readyRecording at h
    rcases hc : lookupA s.phonePreselfieMap phone with _ | pid <;> rw [hc] at h
    · simp at h
    · by_cases hpid : pid = ""
      · simp [hpid] at h
      · rcases hps : lookupA s.preSelfies pid with _ | ps
        · simp [hpid, hps] at h
        · by_cases hr : ps.status = "ready"
          · exact ⟨pid, ps, rfl, hps, hr⟩
          · simp [hpid, hps, hr] at h
  · rintro ⟨pid, ps, hc, hps, hr⟩
    have hpid : pid ≠ "" := by
      intro he
      exact hid (he ▸ hc)
    unfold readyRecording
    rw [hc]
    simp [hpid, hps, hr]

/-- C4: with a valid payload, `submitTask` acknowledges immediately —
the response is computed from the pre-state alone (no network oracle is
involved), and the instant replay, when triggered, is returned as a
still-pending `ReplayLaunch` rather than awaited — with `instant = true`
exactly when the key is bound to an existing recording whose status is
`ready`, and a replay launched exactly in that case.  (The `hid`
hypothesis excludes the unreachable corner of a binding to the empty
identifier, which JavaScript truthiness would also treat as unbound;
real identifiers are non-empty `ps_…` strings.) -/
theorem postTask_instant_flag (s : ServerState) (phone : String) (b : TaskBody) (now : Nat)
    (hU : b.userId ≠ "") (hT : b.transactionId ≠ "")
    (hid : lookupA s.phonePreselfieMap phone ≠ some "") :
    (postTask s phone b now).response.status = 200 ∧
    (postTask s phone b now).response.ok = true ∧
    ((postTask s phone b now).response.instant = true ↔
      ∃ pid ps, lookupA s.phonePreselfieMap phone = some pid ∧
        lookupA s.preSelfies pid = some ps ∧ ps.status = "ready") ∧
    (postTask s phone b now).launched.isSome = (postTask s phone b now).response.instant := by
  have hiff := readyRecording_isSome_iff s phone hid
  rcases hrr : readyRecording s phone with _ | ⟨pid, ps⟩
  · rw [hrr] at hiff
    refine ⟨by simp [postTask, hU, hT, hrr], by simp [postTask, hU, hT, hrr], ?_,
      by simp [postTask, hU, hT, hrr]⟩
    simp only [postTask, hU, hT, hrr]
    simp only [Option.isSome_none] at hiff
    simpa using hiff
  · rw [hrr] at hiff
    refine ⟨by simp [postTask, hU, hT, hrr], by simp [postTask, hU, hT, hrr], ?_,
      by simp [postTask, hU, hT, hrr]⟩
    simp only [postTask, hU, hT, hrr]
    simp only [Option.isSome_some] at hiff
    simpa using hiff

/-- A state with a ready recording bound to key `555`. -/
def c4State : ServerState :=
  { emptyState with
    preSelfies := [("ps_1",
      ⟨"ps_1", "Ahmed", "555", "", [⟨"POST", "h", "/p", "", none, 200, .raw "", "", 0⟩],
        1, 0, none, 0, "ready"⟩)],
    phonePreselfieMap := [("555", "ps_1")] }

/-- Witness for C4 at concrete inputs: with a ready recording bound to
`555` the response says `instant` and a replay is launched; with no
binding it says `instant = false`. -/
theorem postTask_instant_flag_witness :
    (postTask c4State "555" ⟨"u", "t", "", "", "", "", "", none⟩ 9).response.instant = true ∧
    (postTask c4State "555" ⟨"u", "t", "", "", "", "", "", none⟩ 9).launched.isSome = true ∧
    (postTask emptyState "555" ⟨"u", "t", "", "", "", "", "", none⟩ 9).response.instant
      = false := by
  have h := postTask_instant_flag c4State "555" ⟨"u", "t", "", "", "", "", "", none⟩ 9
    (by decide) (by decide) (by decide)
  have hi : (postTask c4State "555" ⟨"u", "t", "", "", "", "", "", none⟩ 9).response.instant
      = true := by
    apply h.2.2.1.mpr
    exact ⟨"ps_1", _, rfl, rfl, rfl⟩
  exact ⟨hi, by rw [h.2.2.2, hi], rfl⟩

/-! ## Claim C7 — finalizeCapture -/

/-- C7: `finalizeCapture(sessionId, label, boundKey)` fails with 400 when
the capture session is missing or holds zero exchanges; with `N ≥ 1`
captured exchanges it replies ok with `exchangeCount = N`, stores a
recording with status `ready`, `captureCount = N` and exactly the
captured exchange sequence, binds the (trimmed) key when one was
provided, and deletes the source capture session. -/
theorem preselfieSave_spec (s : ServerState) (cs label phone sessionId linkId freshId : String)
    (now : Nat) (hcs : cs ≠ "") (hlabel : label ≠ "") :
    (lookupA s.captureBuffers cs = none →
      preselfieSave s cs label phone sessionId linkId freshId now = ⟨400, none, s⟩) ∧
    (∀ buf, lookupA s.captureBuffers cs = some buf → buf.requests = [] →
      preselfieSave s cs label phone sessionId linkId freshId now = ⟨400, none, s⟩) ∧
    (∀ buf, lookupA s.captureBuffers cs = some buf → buf.requests ≠ [] →
      (preselfieSave s cs label phone sessionId linkId freshId now).status = 200 ∧
      (preselfieSave s cs label phone sessionId linkId freshId now).saved
        = some (freshId, buf.requests.length) ∧
      lookupA ((preselfieSave s cs label phone sessionId linkId freshId now).state.preSelfies)
          freshId
        = some ⟨freshId, strTrim label, strTrim phone, sessionId, buf.requests,
            buf.requests.length, now, none, 0, "ready"⟩ ∧
      (phone ≠ "" →
        lookupA ((preselfieSave s cs label phone sessionId linkId
          freshId now).state.phonePreselfieMap) (strTrim phone) = some freshId) ∧
      lookupA ((preselfieSave s cs label phone sessionId linkId
        freshId now).state.captureBuffers) cs = none) := by
  refine ⟨?_, ?_, ?_⟩
  · intro h
    simp [preselfieSave, hcs, hlabel, h]
  · intro buf hb he
    simp [preselfieSave, hcs, hlabel, hb, he]
  · intro buf hb he
    refine ⟨by simp [preselfieSave, hcs, hlabel, hb, he],
      by simp [preselfieSave, hcs, hlabel, hb, he], ?_, ?_, ?_⟩
    · show lookupA ((preselfieSave s cs label phone sessionId linkId
        freshId now).state.preSelfies) freshId = _
      simp only [preselfieSave, hcs, hlabel, hb, he]
      simp [he]
      exact lookupA_insert_self s.preSelfies freshId _
    · intro hp
      show lookupA ((preselfieSave s cs label phone sessionId linkId
        freshId now).state.phonePreselfieMap) (strTrim phone) = some freshId
      simp only [preselfieSave, hcs, hlabel, hb, he]
      simp [he, hp]
      exact lookupA_insert_self s.phonePreselfieMap (strTrim phone) freshId
    · show lookupA ((preselfieSave s cs label phone sessionId linkId
        freshId now).state.captureBuffers) cs = none
      simp only [preselfieSave, hcs, hlabel, hb, he]
      simp [he]
      exact lookupA_erase_self s.captureBuffers cs

/-- Witness for C7 at concrete inputs: saving session `preselfie_w` with
one captured exchange yields a ready recording of count 1 bound to
`666`, and the empty-session failure replies 400. -/
theorem preselfieSave_spec_witness :
    (preselfieSave emptyState "preselfie_w" "Ahmed" "666" "" "" "ps_9" 4
      = ⟨400, none, emptyState⟩) ∧
    (preselfieSave
        ({ emptyState with captureBuffers :=
            [("preselfie_w", ⟨[⟨"POST", "h", "/p", "", none, 200, .raw "", "", 1⟩], 1⟩)] })
        "preselfie_w" "Ahmed" "666" "" "" "ps_9" 4).status = 200 ∧
    lookupA (preselfieSave
        ({ emptyState with captureBuffers :=
            [("preselfie_w", ⟨[⟨"POST", "h", "/p", "", none, 200, .raw "", "", 1⟩], 1⟩)] })
        "preselfie_w" "Ahmed" "666" "" "" "ps_9" 4).state.phonePreselfieMap "666"
      = some "ps_9" := by
  have h0 := preselfieSave_spec emptyState "preselfie_w" "Ahmed" "666" "" "" "ps_9" 4
    (by decide) (by decide)
  have h1 := preselfieSave_spec
    ({ emptyState with captureBuffers :=
        [("preselfie_w", ⟨[⟨"POST", "h", "/p", "", none, 200, .raw "", "", 1⟩], 1⟩)] })
    "preselfie_w" "Ahmed" "666" "" "" "ps_9" 4 (by decide) (by decide)
  refine ⟨h0.1 rfl, (h1.2.2 _ rfl (by simp)).1, ?_⟩
  have := (h1.2.2 _ rfl (by simp)).2.2.2.1 (by decide)
  simpa using this

/-! ## Claim C1 — proxy allow-list -/

/-- The allow-list as the spec words it: membership means having the
single vendor domain as a hostname suffix.  Stated only for comparison
with the code's substring test `hostname.includes('ozforensics.com')`. -/
def specAllowedHost (h : String) : Bool :=
  strEndsWith h "ozforensics.com"

/-- C1 (amended): the proxy's access check is a substring test — for
every request whose resolved hostname does not CONTAIN the vendor domain
`ozforensics.com`, the handler replies 403, issues no outbound call,
captures nothing and leaves the state unchanged; the check runs before
any network call (the oracle is never consulted). -/
theorem proxy_forbidden_no_call (s : ServerState) (req : ProxyReq) (net : Net) (now : Nat)
    (host fullPath : String) (htp : req.targetPath ≠ "")
    (hp : parseHttpsUrl ("https://" ++ req.targetPath ++ req.search) = some (host, fullPath))
    (hAllow : containsSubstr host "ozforensics.com" = false) :
    (ozProxyStep s req net now).status = 403 ∧
    (ozProxyStep s req net now).outcall = none ∧
    (ozProxyStep s req net now).captured = none ∧
    (ozProxyStep s req net now).state = s := by
  refine ⟨?_, ?_, ?_, ?_⟩ <;> simp [ozProxyStep, htp, hp, hAllow]

/-- Witness for C1 (amended) at a concrete disallowed target. -/
theorem proxy_forbidden_no_call_witness :
    (ozProxyStep emptyState ⟨"p1", "evil.example/x", "", "GET", [], none⟩
      (fun _ => .ok ⟨200, [], .raw "hi"⟩) 0).status = 403 ∧
    (ozProxyStep emptyState ⟨"p1", "evil.example/x", "", "GET", [], none⟩
      (fun _ => .ok ⟨200, [], .raw "hi"⟩) 0).outcall = none := by
  have h := proxy_forbidden_no_call emptyState ⟨"p1", "evil.example/x", "", "GET", [], none⟩
    (fun _ => .ok ⟨200, [], .raw "hi"⟩) 0 "evil.example" "/x" (by decide) rfl (by decide)
  exact ⟨h.1, h.2.1⟩

/-- A request whose resolved hostname has the vendor domain as a strict
infix (`ozforensics.com.evil.net`) — outside the spec's suffix
allow-list. -/
def c1Req : ProxyReq :=
  ⟨"p1", "ozforensics.com.evil.net/api/x", "", "POST", [], none⟩

/-- A mock upstream that answers 200 to anything. -/
def c1Net : Net :=
  fun _ => .ok ⟨200, [], .raw "resp"⟩

/-- C1 counterexample: the hostname `ozforensics.com.evil.net` is NOT in
the spec's allow-list (the vendor domain is not a suffix of it), yet the
handler — whose test is `hostname.includes('ozforensics.com')` — does
not reply 403: it issues the outbound network call and forwards the
upstream's 200. -/
theorem proxy_allowlist_counterexample :
    specAllowedHost "ozforensics.com.evil.net" = false ∧
    parseHttpsUrl "https://ozforensics.com.evil.net/api/x"
      = some ("ozforensics.com.evil.net", "/api/x") ∧
    (ozProxyStep emptyState c1Req c1Net 0).status = 200 ∧
    (ozProxyStep emptyState c1Req c1Net 0).outcall.isSome = true := by
  exact ⟨by decide, by decide, rfl, rfl⟩

/-! ## Claim C10 — proxy captures are all POST -/

/-- Every exchange of every capture buffer has method POST. -/
def bufAllPost (s : ServerState) : Prop :=
  ∀ cs buf, lookupA s.captureBuffers cs = some buf →
    ∀ ex ∈ buf.requests, ex.method = "POST"

/-- The proxy either leaves the state unchanged, or captures one
exchange and appends exactly it to the phone's buffer. -/
theorem ozProxyStep_state_char (s : ServerState) (req : ProxyReq) (net : Net) (now : Nat) :
    ((ozProxyStep s req net now).captured = none ∧ (ozProxyStep s req net now).state = s) ∨
    (∃ ex, (ozProxyStep s req net now).captured = some ex ∧
      (ozProxyStep s req net now).state = captureAppend s req.phone ex now) := by
  unfold ozProxyStep
  repeat' split
  all_goals simp only []
  all_goals repeat' split
  all_goals simp [captureAppend]

/-- Reading the appended-to buffer back. -/
theorem captureAppend_buffers_self (s : ServerState) (phone : String) (ex : CapturedExchange)
    (now : Nat) :
    lookupA (captureAppend s phone ex now).captureBuffers phone
      = some ⟨((lookupA s.captureBuffers phone).getD ⟨[], now⟩).requests ++ [ex],
          ((lookupA s.captureBuffers phone).getD ⟨[], now⟩).createdAt⟩ :=
  lookupA_insert_self _ _ _

/-- Other buffers are untouched by an append. -/
theorem captureAppend_buffers_ne (s : ServerState) (phone : String) (ex : CapturedExchange)
    (now : Nat) (cs' : String) (hne : cs' ≠ phone) :
    lookupA (captureAppend s phone ex now).captureBuffers cs'
      = lookupA s.captureBuffers cs' := by
  show lookupA (insertA s.captureBuffers phone _) cs' = _
  rw [lookupA_insert_ne _ _ _ _ hne]

/-- Appending a POST exchange preserves the all-POST buffer invariant. -/
theorem bufAllPost_captureAppend (s : ServerState) (phone : String) (ex : CapturedExchange)
    (now : Nat) (hb : bufAllPost s) (hex : ex.method = "POST") :
    bufAllPost (captureAppend s phone ex now) := by
  intro cs' buf' hl ex' hm
  by_cases hk : cs' = phone
  · subst hk
    rw [captureAppend_buffers_self, Option.some_inj] at hl
    subst hl
    simp only [List.mem_append] at hm
    rcases hm with hm | hm
    · rcases hb0 : lookupA s.captureBuffers cs' with _ | b0
      · rw [hb0] at hm
        simp at hm
      · rw [hb0] at hm
        exact hb cs' b0 hb0 ex' hm
    · simp only [List.mem_singleton] at hm
      subst hm
      exact hex
  · rw [captureAppend_buffers_ne s phone ex now cs' hk] at hl
    exact hb cs' buf' hl ex' hm

/-- C10: the proxy appends an exchange to a capture buffer only when the
client key carries the `preselfie_` capture marker AND the inbound
method is POST — so the appended exchange always has method POST, the
all-POST buffer invariant is preserved by every proxy step, and on an
all-POST recording the replay engine's non-mutating-verb filter (the
method ≠ POST skip) retains every exchange. -/
theorem proxy_capture_only_post :
    (∀ (s : ServerState) (req : ProxyReq) (net : Net) (now : Nat) (ex : CapturedExchange),
      (ozProxyStep s req net now).captured = some ex →
      ex.method = "POST" ∧ req.method = "POST" ∧
        strStartsWith req.phone "preselfie_" = true) ∧
    (∀ (s : ServerState) (req : ProxyReq) (net : Net) (now : Nat),
      bufAllPost s → bufAllPost (ozProxyStep s req net now).state) ∧
    (∀ caps : List CapturedExchange, (∀ c ∈ caps, c.method = "POST") →
      caps.filter (fun c => c.method == "POST") = caps) := by
  have hcap : ∀ (s : ServerState) (req : ProxyReq) (net : Net) (now : Nat)
      (ex : CapturedExchange), (ozProxyStep s req net now).captured = some ex →
      ex.method = "POST" ∧ req.method = "POST" ∧
        strStartsWith req.phone "preselfie_" = true := by
    intro s req net now ex h
    unfold ozProxyStep at h
    repeat' split at h
    all_goals simp only [] at h
    all_goals repeat' split at h
    all_goals simp at h
    have hcond : (strStartsWith req.phone "preselfie_" && req.method == "POST") = true := by
      assumption
    rw [Bool.and_eq_true] at hcond
    have hm : req.method = "POST" := by simpa using hcond.2
    cases h
    exact ⟨hm, hm, hcond.1⟩
  refine ⟨hcap, ?_, ?_⟩
  · intro s req net now hb
    rcases ozProxyStep_state_char s req net now with ⟨_, hst⟩ | ⟨ex, hc, hst⟩
    · rw [hst]
      exact hb
    · rw [hst]
      exact bufAllPost_captureAppend s req.phone ex now hb (hcap s req net now ex hc).1
  · intro caps h
    induction caps with
    | nil => rfl
    | cons c rest ih =>
      have hc : (c.method == "POST") = true := by
        have := h c (List.mem_cons_self _ _)
        simpa using this
      have hr : ∀ x ∈ rest, x.method = "POST" := fun x hx => h x (List.mem_cons_of_mem _ hx)
      simp [List.filter_cons, hc, ih hr]

/-- Witness for C10: a concrete capturing POST through the proxy yields
a POST-only buffer, via the invariant-preservation part of the theorem
applied to the empty state. -/
theorem proxy_capture_only_post_witness :
    bufAllPost (ozProxyStep emptyState
      ⟨"preselfie_w", "api.ozforensics.com/v1", "", "POST",
        [("content-type", "application/json")], some (.raw "b")⟩
      (fun _ => .ok ⟨201, [], .raw "resp"⟩) 5).state ∧
    ((ozProxyStep emptyState
      ⟨"preselfie_w", "api.ozforensics.com/v1", "", "POST",
        [("content-type", "application/json")], some (.raw "b")⟩
      (fun _ => .ok ⟨201, [], .raw "resp"⟩) 5).captured.map
        (fun ex => ex.method)) = some "POST" := by
  constructor
  · apply proxy_capture_only_post.2.1
    intro cs buf h
    simp [emptyState, lookupA] at h
  · rfl

/-! ## Claim C6 — correlation-field substitution on replayed bodies -/

theorem lookupA_replaceField_self {α : Type} (fs : List (String × α)) (k : String) (v w : α)
    (h : lookupA fs k = some w) : lookupA (replaceField fs k v) k = some v := by
  induction fs with
  | nil => simp [lookupA] at h
  | cons p rest ih =>
    obtain ⟨a, b⟩ := p
    by_cases hp : a = k
    · subst hp
      simp [replaceField, lookupA]
    · have h' : lookupA rest k = some w := by simpa [lookupA, hp] using h
      simp [replaceField, lookupA, hp, ih h']

theorem lookupA_replaceField_ne {α : Type} (fs : List (String × α)) (k k' : String) (v : α)
    (hne : k' ≠ k) : lookupA (replaceField fs k v) k' = lookupA fs k' := by
  induction fs with
  | nil => rfl
  | cons p rest ih =>
    obtain ⟨a, b⟩ := p
    by_cases hp : a = k
    · subst hp
      have hak : ¬ a = k' := fun hv => hne hv.symm
      simp [replaceField, lookupA, hak, ih]
    · by_cases hk : a = k'
      · simp [replaceField, lookupA, hp, hk, hne]
      · simp [replaceField, lookupA, hp, hk, ih]

theorem lookupA_append_single_ne {α : Type} (fs : List (String × α)) (k k' : String) (v : α)
    (hne : k' ≠ k) : lookupA (fs ++ [(k, v)]) k' = lookupA fs k' := by
  induction fs with
  | nil =>
    have hk : ¬ k = k' := fun hv => hne hv.symm
    simp [lookupA, hk]
  | cons p rest ih =>
    obtain ⟨a, b⟩ := p
    by_cases hk : a = k'
    · simp [lookupA, hk]
    · simp [lookupA, hk, ih]

theorem getField_setField_self (j : Json) (k : String) (v w : Json)
    (h : getField j k = some w) : getField (setField j k v) k = some v := by
  cases j <;> simp [getField] at h
  rename_i fs
  have hs : (lookupA fs k).isSome = true := by rw [h]; rfl
  simp only [setField, hs, if_pos]
  exact lookupA_replaceField_self fs k v w h

theorem getField_setField_ne (j : Json) (k k' : String) (v : Json) (hne : k' ≠ k) :
    getField (setField j k v) k' = getField j k' := by
  cases j <;> try rfl
  rename_i fs
  by_cases hs : (lookupA fs k).isSome = true
  · simp only [setField, hs, if_pos, getField]
    exact lookupA_replaceField_ne fs k k' v hne
  · simp only [Bool.not_eq_true] at hs
    simp only [setField, hs, Bool.false_eq_true, if_false, getField]
    exact lookupA_append_single_ne fs k k' v hne

theorem setField_obj (fs : List (String × Json)) (k : String) (v : Json) :
    ∃ fs', setField (.obj fs) k v = .obj fs' := by
  by_cases hs : (lookupA fs k).isSome = true
  · exact ⟨replaceField fs k v, by simp [setField, hs]⟩
  · simp only [Bool.not_eq_true] at hs
    exact ⟨fs ++ [(k, v)], by simp [setField, hs]⟩

theorem substField_self (j : Json) (key nv : String) (v : Json)
    (hv : getField j key = some v) (ht : jsTruthy v = true) :
    getField (substField j key nv) key = some (.str nv) := by
  simp only [substField, hv, ht, if_pos]
  exact getField_setField_self j key (.str nv) v hv

theorem substField_ne (j : Json) (key nv k' : String) (hne : k' ≠ key) :
    getField (substField j key nv) k' = getField j k' := by
  unfold substField
  rcases hv : getField j key with _ | v
  · rfl
  · by_cases ht : jsTruthy v = true
    · simp only [ht, if_pos]
      exact getField_setField_ne j key k' (.str nv) hne
    · simp only [Bool.not_eq_true] at ht
      simp [ht]

theorem substField_obj (fs : List (String × Json)) (key nv : String) :
    ∃ fs', substField (.obj fs) key nv = .obj fs' := by
  unfold substField
  rcases hv : getField (Json.obj fs) key with _ | v
  · exact ⟨fs, rfl⟩
  · by_cases ht : jsTruthy v = true
    · simp only [ht, if_pos]
      exact setField_obj fs key (.str nv)
    · simp only [Bool.not_eq_true] at ht
      exact ⟨fs, by simp [ht]⟩

/-- C6 (amended): the replay engine substitutes the two new correlation
values into the top-level and `meta`-nested JSON occurrences of
`user_id`/`transaction_id` (occurrences nested under any other key are
left unchanged — see the counterexample) and into key=value-like tokens
of multipart bodies; in particular, replaying a recorded JSON body
`meta.user_id = A1, meta.transaction_id = B1` with `("A2","B2")`
re-issues a body containing `"user_id":"A2"` and `"transaction_id":"B2"`
and not the originals. -/
theorem replay_body_substitution (nU nT : String) (fs : List (String × Json)) :
    (∀ v, getField (.obj fs) "user_id" = some v → jsTruthy v = true →
      getField (substCorrelation (.obj fs) nU nT) "user_id" = some (.str nU)) ∧
    (∀ v, getField (.obj fs) "transaction_id" = some v → jsTruthy v = true →
      getField (substCorrelation (.obj fs) nU nT) "transaction_id" = some (.str nT)) ∧
    (∀ ms vU vT, getField (.obj fs) "meta" = some (.obj ms) →
      getField (.obj ms) "user_id" = some vU → jsTruthy vU = true →
      getField (.obj ms) "transaction_id" = some vT → jsTruthy vT = true →
      ∃ ms', getField (substCorrelation (.obj fs) nU nT) "meta" = some (.obj ms') ∧
        getField (.obj ms') "user_id" = some (.str nU) ∧
        getField (.obj ms') "transaction_id" = some (.str nT)) ∧
    (∀ cap : CapturedExchange, ∀ j : Json, cap.requestBody = some (.json j) →
      containsSubstr cap.contentType "json" = true →
      containsSubstr cap.contentType "multipart" = false →
      rebuildBody cap nU nT = some (Json.stringify (substCorrelation j nU nT))) ∧
    (∀ cap : CapturedExchange, ∀ b : Body, cap.requestBody = some b →
      containsSubstr cap.contentType "json" = false →
      containsSubstr cap.contentType "multipart" = true →
      rebuildBody cap nU nT
        = some (kvSubstStr "transaction_id" nT (kvSubstStr "user_id" nU (bodyToString b)))) ∧
    (∃ out, rebuildBody ⟨"POST", "h", "/p", "application/json",
        some (.json (.obj [("meta",
          .obj [("user_id", .str "A1"), ("transaction_id", .str "B1")])])),
        200, .raw "", "", 0⟩ "A2" "B2" = some out ∧
      containsSubstr out "\"user_id\":\"A2\"" = true ∧
      containsSubstr out "\"transaction_id\":\"B2\"" = true ∧
      containsSubstr out "A1" = false ∧
      containsSubstr out "B1" = false) := by
  have hmeta_ne : ∀ (j : Json) (k' : String), k' ≠ "user_id" → k' ≠ "transaction_id" →
      getField (substCorrelation j nU nT) k' = getField (substMetaStep j nU nT) k' := by
    intro j k' h1 h2
    unfold substCorrelation
    rw [substField_ne _ _ _ _ h2, substField_ne _ _ _ _ h1]
  refine ⟨?_, ?_, ?_, ?_, ?_, ?_⟩
  · intro v hv ht
    unfold substCorrelation
    rw [substField_ne _ _ _ _ (by decide : ("user_id" : String) ≠ "transaction_id")]
    have hv1 : getField (substMetaStep (.obj fs) nU nT) "user_id" = some v := by
      unfold substMetaStep
      rcases hm : getField (Json.obj fs) "meta" with _ | m
      · exact hv
      · by_cases htm : jsTruthy m = true
        · simp only [htm, if_pos]
          rw [getField_setField_ne _ _ _ _ (by decide : ("user_id" : String) ≠ "meta")]
          exact hv
        · simp only [Bool.not_eq_true] at htm
          simp [htm, hv]
    exact substField_self _ _ _ _ hv1 ht
  · intro v hv ht
    unfold substCorrelation
    have hv1 : getField (substMetaStep (.obj fs) nU nT) "transaction_id" = some v := by
      unfold substMetaStep
      rcases hm : getField (Json.obj fs) "meta" with _ | m
      · exact hv
      · by_cases htm : jsTruthy m = true
        · simp only [htm, if_pos]
          rw [getField_setField_ne _ _ _ _ (by decide : ("transaction_id" : String) ≠ "meta")]
          exact hv
        · simp only [Bool.not_eq_true] at htm
          simp [htm, hv]
    have hv2 : getField (substField (substMetaStep (.obj fs) nU nT) "user_id" nU)
        "transaction_id" = some v := by
      rw [substField_ne _ _ _ _ (by decide : ("transaction_id" : String) ≠ "user_id")]
      exact hv1
    exact substField_self _ _ _ _ hv2 ht
  · intro ms vU vT hm hu htu htr httr
    obtain ⟨ms1, hms1⟩ := substField_obj ms "user_id" nU
    obtain ⟨ms2, hms2⟩ := substField_obj ms1 "transaction_id" nT
    have hm2 : substField (substField (.obj ms) "user_id" nU) "transaction_id" nT
        = .obj ms2 := by rw [hms1, hms2]
    have hgu : getField (Json.obj ms2) "user_id" = some (.str nU) := by
      rw [← hm2]
      rw [substField_ne _ _ _ _ (by decide : ("user_id" : String) ≠ "transaction_id")]
      exact substField_self (.obj ms) "user_id" nU vU hu htu
    have hgt : getField (Json.obj ms2) "transaction_id" = some (.str nT) := by
      rw [← hm2]
      apply substField_self
      · rw [substField_ne _ _ _ _ (by decide : ("transaction_id" : String) ≠ "user_id")]
        exact htr
      · exact httr
    have hstep0 : substMetaStep (.obj fs) nU nT
        = setField (.obj fs) "meta"
            (substField (substField (.obj ms) "user_id" nU) "transaction_id" nT) := by
      unfold substMetaStep
      rw [hm]
      rfl
    have hstep : getField (substMetaStep (.obj fs) nU nT) "meta" = some (.obj ms2) := by
      rw [hstep0, hm2]
      exact getField_setField_self _ "meta" (.obj ms2) (.obj ms) hm
    refine ⟨ms2, ?_, hgu, hgt⟩
    rw [hmeta_ne _ _ (by decide) (by decide)]
    exact hstep
  · intro cap j hb hj hm
    simp [rebuildBody, hb, hj, hm, bodyToString]
  · intro cap b hb hj hm
    simp [rebuildBody, hb, hj, hm]
  · refine ⟨_, rfl, ?_, ?_, ?_, ?_⟩ <;> decide

/-- C6 counterexample: a JSON occurrence of the correlation fields
nested under a key other than `meta` is NOT substituted — replaying a
recorded body whose `outer.user_id = A1` with `("A2","B2")` re-issues a
body still containing `A1` and not `A2` (the engine only rewrites
top-level and `meta`-level fields). -/
theorem replay_body_substitution_counterexample :
    ∃ out, rebuildBody ⟨"POST", "h", "/p", "application/json",
        some (.json (.obj [("outer",
          .obj [("user_id", .str "A1"), ("transaction_id", .str "B1")])])),
        200, .raw "", "", 0⟩ "A2" "B2" = some out ∧
      containsSubstr out "A1" = true ∧
      containsSubstr out "B1" = true ∧
      containsSubstr out "A2" = false ∧
      containsSubstr out "B2" = false := by
  refine ⟨_, rfl, ?_, ?_, ?_, ?_⟩ <;> decide

/-- Witness for C6 (amended) at concrete inputs: a truthy top-level
`user_id` is rewritten to the new value. -/
theorem replay_body_substitution_witness :
    getField (substCorrelation (.obj [("user_id", .str "A1")]) "A2" "B2") "user_id"
      = some (.str "A2") := by
  exact (replay_body_substitution "A2" "B2" [("user_id", .str "A1")]).1
    (.str "A1") rfl (by decide)

/-! ## Claim C5 — replay token extraction -/

/-- One fold step of the replay: re-issue the exchange; a successful
response updates the accumulator through `scanResponse`, a failed call
leaves it unchanged. -/
def replayStep (nU nT nIp : String) (net : Net) (acc : Option Json)
    (cap : CapturedExchange) : Option Json :=
  match net (replayCall cap nU nT nIp) with
  | .ok r => scanResponse acc r.body
  | .netErr _ => acc
  | .timeout => acc

/-- The replay result as a fold: scan the successful responses of the
re-issued POST exchanges in order, starting from "absent". -/
def replayTokenFold (nU nT nIp : String) (net : Net) (caps : List CapturedExchange) :
    Option Json :=
  (caps.filter (fun c => c.method == "POST")).foldl (replayStep nU nT nIp net) none

theorem replayCore_eq_foldl (nU nT nIp : String) (net : Net) :
    ∀ (caps : List CapturedExchange) (acc : Option Json),
      replayCore nU nT nIp net caps acc
        = (caps.filter (fun c => c.method == "POST")).foldl (replayStep nU nT nIp net) acc := by
  intro caps
  induction caps with
  | nil => intro acc; rfl
  | cons c rest ih =>
    intro acc
    by_cases hm : c.method = "POST"
    · have hb : (c.method == "POST") = true := by simp [hm]
      have hni : ¬ c.method ≠ "POST" := fun hc => hc hm
      rw [List.filter_cons, if_pos hb, List.foldl_cons]
      simp only [replayCore]
      rw [if_neg hni]
      have hstep : ∀ acc', replayStep nU nT nIp net acc' c
          = match net (replayCall c nU nT nIp) with
            | .ok r => scanResponse acc' r.body
            | .netErr _ => acc'
            | .timeout => acc' := fun _ => rfl
      rcases hnet : net (replayCall c nU nT nIp) with r | msg | _ <;>
        rw [hstep acc, hnet] <;> exact ih _
    · have hb : ¬ (c.method == "POST") = true := by simp [hm]
      rw [List.filter_cons, if_neg hb]
      simp only [replayCore]
      rw [if_pos hm]
      exact ih acc

/-- C5 (amended): exchange-sequence replay returns the token obtained by
scanning, in order, the responses of the successfully re-issued POST
exchanges — a truthy top-level `event_session_id` or nested
`data.event_session_id` overwrites the token retained so far, while the
`session_id` alias fills in only when no token has been retained yet
(so the result is not always the LAST token seen — see the
counterexample), and a non-JSON body falls back to a regex scan whose
match overwrites — returning "absent" (`none`, not an exception) when no
response yields one; the failure of an individual re-issued call is
non-fatal: that exchange contributes nothing and iteration continues. -/
theorem replay_token_spec (ps : PreSelfie) (nU nT nIp : String) (net : Net) (now : Nat)
    (h : ps.captures ≠ []) :
    (∃ res, replayPreselfie ps nU nT nIp net now = .ok res ∧
      res.token = replayTokenFold nU nT nIp net ps.captures) ∧
    (∀ (l1 l2 : List CapturedExchange) (c : CapturedExchange) (acc : Option Json),
      (∀ r, net (replayCall c nU nT nIp) ≠ .ok r) →
      replayCore nU nT nIp net (l1 ++ c :: l2) acc
        = replayCore nU nT nIp net (l1 ++ l2) acc) ∧
    (∀ caps : List CapturedExchange,
      (∀ c ∈ caps, ∀ r, net (replayCall c nU nT nIp) ≠ .ok r) →
      replayCore nU nT nIp net caps none = none) := by
  refine ⟨?_, ?_, ?_⟩
  · have he : ps.captures.isEmpty = false := by
      rcases hc : ps.captures with _ | ⟨a, l⟩
      · exact absurd hc h
      · rfl
    refine ⟨⟨replayCore nU nT nIp net ps.captures none,
      { ps with lastUsed := some now, useCount := ps.useCount + 1 }⟩, ?_, ?_⟩
    · simp [replayPreselfie, he]
    · exact replayCore_eq_foldl nU nT nIp net ps.captures none
  · intro l1 l2 c acc hfail
    induction l1 generalizing acc with
    | nil =>
      simp only [List.nil_append]
      simp only [replayCore]
      by_cases hm : c.method ≠ "POST"
      · rw [if_pos hm]
      · rw [if_neg hm]
        rcases hnet : net (replayCall c nU nT nIp) with r | msg | _
        · exact absurd hnet (hfail r)
        · rfl
        · rfl
    | cons a l1 ih =>
      simp only [List.cons_append]
      simp only [replayCore]
      by_cases hm : a.method ≠ "POST"
      · rw [if_pos hm, if_pos hm]
        exact ih acc
      · rw [if_neg hm, if_neg hm]
        rcases hnet : net (replayCall a nU nT nIp) with r | msg | _ <;> exact ih _
  · intro caps hfail
    induction caps with
    | nil => rfl
    | cons c rest ih =>
      have hrest : ∀ x ∈ rest, ∀ r, net (replayCall x nU nT nIp) ≠ .ok r :=
        fun x hx => hfail x (List.mem_cons_of_mem _ hx)
      simp only [replayCore]
      by_cases hm : c.method ≠ "POST"
      · rw [if_pos hm]
        exact ih hrest
      · rw [if_neg hm]
        rcases hnet : net (replayCall c nU nT nIp) with r | msg | _
        · exact absurd hnet (hfail c (List.mem_cons_self _ _) r)
        · exact ih hrest
        · exact ih hrest

/-- Modelled on the spec's words, for comparison only: the token a
single response "yields" — any recognised alias field (top-level
`event_session_id`, nested `data.event_session_id`, or `session_id`)
when truthy, or the raw-body regex match. -/
def specTokenOf (rb : Body) : Option Json :=
  match rb with
  | .json j =>
    match getField j "event_session_id" with
    | some v =>
      if jsTruthy v then some v
      else none
    | none =>
      match getField j "data" with
      | some d =>
        match getField d "event_session_id" with
        | some v => if jsTruthy v then some v else
            match getField j "session_id" with
            | some w => if jsTruthy w then some w else none
            | none => none
        | none =>
          match getField j "session_id" with
          | some w => if jsTruthy w then some w else none
          | none => none
      | none =>
        match getField j "session_id" with
        | some w => if jsTruthy w then some w else none
        | none => none
  | .raw s => (findEsid s).map Json.str

/-- Modelled on the spec's words, for comparison only: "the last such
token seen across the sequence" — over the responses of the re-issued
POST exchanges, the latest response that yields a token wins. -/
def specLastTokenSeen (nU nT nIp : String) (net : Net)
    (caps : List CapturedExchange) : Option Json :=
  (caps.filter (fun c => c.method == "POST")).foldl
    (fun acc cap =>
      match net (replayCall cap nU nT nIp) with
      | .ok r =>
        match specTokenOf r.body with
        | some t => some t
        | none => acc
      | .netErr _ => acc
      | .timeout => acc) none

def c5cap1 : CapturedExchange :=
  ⟨"POST", "api.test", "/p1", "", none, 200, .raw "", "", 0⟩

def c5cap2 : CapturedExchange :=
  ⟨"POST", "api.test", "/p2", "", none, 200, .raw "", "", 0⟩

/-- A recording of the two exchanges above. -/
def c5Recording : PreSelfie :=
  ⟨"ps_5", "L", "", "", [c5cap1, c5cap2], 2, 0, none, 0, "ready"⟩

/-- A mock upstream: the first path answers with a top-level
`event_session_id` of `X`, the second with a `session_id` of `Y`. -/
def c5Net : Net := fun c =>
  if c.path = "/p1" then .ok ⟨200, [], .json (.obj [("event_session_id", .str "X")])⟩
  else .ok ⟨200, [], .json (.obj [("session_id", .str "Y")])⟩

/-- C5 counterexample: the second response yields the token `Y` through
the `session_id` alias, so the LAST token seen across the sequence is
`Y`; yet the engine returns `X`, because `session_id` is read only when
no token has been retained yet (`if (resObj.session_id &&
!lastSessionId)`). -/
theorem replay_last_token_counterexample :
    specLastTokenSeen "u" "t" "" c5Net c5Recording.captures = some (.str "Y") ∧
    (∃ res, replayPreselfie c5Recording "u" "t" "" c5Net 9 = .ok res ∧
      res.token = some (.str "X")) ∧
    Json.str "X" ≠ Json.str "Y" := by
  refine ⟨rfl, ⟨_, rfl, rfl⟩, ?_⟩
  intro hxy
  injection hxy with hs
  exact absurd hs (by decide)

/-- Witness for C5 (amended) at the concrete recording and mock network. -/
theorem replay_token_spec_witness :
    ∃ res, replayPreselfie c5Recording "u" "t" "" c5Net 9 = .ok res ∧
      res.token = replayTokenFold "u" "t" "" c5Net c5Recording.captures := by
  exact (replay_token_spec c5Recording "u" "t" "" c5Net 9 (by simp [c5Recording])).1

/-! ## Claim C8 — eviction sweep -/

theorem sweep_tasks_keep (s : ServerState) (now : Nat) (p : String) (t : WorkItem)
    (hl : lookupA s.tasks p = some t) (hy : ¬ now - t.timestamp > MAX_TASK) :
    lookupA (sweepTick now s).tasks p = some t := by
  apply lookupA_filter_keep _ _ _ _ hl
  simp [hy]

theorem sweep_results_keep (s : ServerState) (now : Nat) (p : String) (r : ResultItem)
    (hl : lookupA s.results p = some r) (hy : ¬ now - r.timestamp > MAX_TASK) :
    lookupA (sweepTick now s).results p = some r := by
  apply lookupA_filter_keep _ _ _ _ hl
  simp [hy]

theorem sweep_buffers_keep (s : ServerState) (now : Nat) (c : String) (b : CaptureBuffer)
    (hl : lookupA s.captureBuffers c = some b) (hy : ¬ now - b.createdAt > MAX_TASK) :
    lookupA (sweepTick now s).captureBuffers c = some b := by
  apply lookupA_filter_keep _ _ _ _ hl
  simp [hy]

theorem sweep_preselfies_keep (s : ServerState) (now : Nat) (i : String) (ps : PreSelfie)
    (hl : lookupA s.preSelfies i = some ps) (hy : ¬ now - ps.createdAt > MAX_PRESELFIE) :
    lookupA (sweepTick now s).preSelfies i = some ps := by
  apply lookupA_filter_keep _ _ _ _ hl
  simp [hy]

theorem sweep_links_keep (s : ServerState) (now : Nat) (l : String) (g : GenLink)
    (hl : lookupA s.generatedLinks l = some g) (hy : ¬ now - g.createdAt > MAX_PRESELFIE) :
    lookupA (sweepTick now s).generatedLinks l = some g := by
  apply lookupA_filter_keep _ _ _ _ hl
  simp [hy]

theorem sweepMany_tasks_keep (ns : List Nat) :
    ∀ (s : ServerState) (p : String) (t : WorkItem), lookupA s.tasks p = some t →
      (∀ n ∈ ns, ¬ n - t.timestamp > MAX_TASK) →
      lookupA (sweepMany ns s).tasks p = some t := by
  induction ns with
  | nil => intro s p t hl _; exact hl
  | cons n ns ih =>
    intro s p t hl hy
    exact ih (sweepTick n s) p t
      (sweep_tasks_keep s n p t hl (hy n (List.mem_cons_self _ _)))
      (fun m hm => hy m (List.mem_cons_of_mem _ hm))

theorem sweepMany_results_keep (ns : List Nat) :
    ∀ (s : ServerState) (p : String) (r : ResultItem), lookupA s.results p = some r →
      (∀ n ∈ ns, ¬ n - r.timestamp > MAX_TASK) →
      lookupA (sweepMany ns s).results p = some r := by
  induction ns with
  | nil => intro s p r hl _; exact hl
  | cons n ns ih =>
    intro s p r hl hy
    exact ih (sweepTick n s) p r
      (sweep_results_keep s n p r hl (hy n (List.mem_cons_self _ _)))
      (fun m hm => hy m (List.mem_cons_of_mem _ hm))

theorem sweepMany_buffers_keep (ns : List Nat) :
    ∀ (s : ServerState) (c : String) (b : CaptureBuffer), lookupA s.captureBuffers c = some b →
      (∀ n ∈ ns, ¬ n - b.createdAt > MAX_TASK) →
      lookupA (sweepMany ns s).captureBuffers c = some b := by
  induction ns with
  | nil => intro s c b hl _; exact hl
  | cons n ns ih =>
    intro s c b hl hy
    exact ih (sweepTick n s) c b
      (sweep_buffers_keep s n c b hl (hy n (List.mem_cons_self _ _)))
      (fun m hm => hy m (List.mem_cons_of_mem _ hm))

theorem sweepMany_preselfies_keep (ns : List Nat) :
    ∀ (s : ServerState) (i : String) (ps : PreSelfie), lookupA s.preSelfies i = some ps →
      (∀ n ∈ ns, ¬ n - ps.createdAt > MAX_PRESELFIE) →
      lookupA (sweepMany ns s).preSelfies i = some ps := by
  induction ns with
  | nil => intro s i ps hl _; exact hl
  | cons n ns ih =>
    intro s i ps hl hy
    exact ih (sweepTick n s) i ps
      (sweep_preselfies_keep s n i ps hl (hy n (List.mem_cons_self _ _)))
      (fun m hm => hy m (List.mem_cons_of_mem _ hm))

theorem sweepMany_links_keep (ns : List Nat) :
    ∀ (s : ServerState) (l : String) (g : GenLink), lookupA s.generatedLinks l = some g →
      (∀ n ∈ ns, ¬ n - g.createdAt > MAX_PRESELFIE) →
      lookupA (sweepMany ns s).generatedLinks l = some g := by
  induction ns with
  | nil => intro s l g hl _; exact hl
  | cons n ns ih =>
    intro s l g hl hy
    exact ih (sweepTick n s) l g
      (sweep_links_keep s n l g hl (hy n (List.mem_cons_self _ _)))
      (fun m hm => hy m (List.mem_cons_of_mem _ hm))

/-- C8 (amended): after every sweep tick, every task, result and capture
buffer older than 30 minutes and every recording and generated link
older than 7 days is absent; an expiring task also removes the key's IP
association; removal of a recording cascades to the key bindings — no
surviving binding points at a recording this tick expired; and entries
younger than their max-age survive any number of sweep ticks.  (IP
associations carry no timestamp of their own and are NOT independently
aged: one is deleted only together with its expiring task — or by
`clear` — so an IP association whose task was already retired survives
every sweep; see the counterexample.  The `NodupKeys` hypotheses record
that JavaScript objects cannot hold a key twice.) -/
theorem sweep_spec (s : ServerState) (now : Nat)
    (hT : NodupKeys s.tasks) (hR : NodupKeys s.results) (hB : NodupKeys s.captureBuffers)
    (hP : NodupKeys s.preSelfies) (hL : NodupKeys s.generatedLinks) :
    (∀ p t, lookupA s.tasks p = some t → now - t.timestamp > MAX_TASK →
      lookupA (sweepTick now s).tasks p = none ∧
      lookupA (sweepTick now s).phoneIpMap p = none) ∧
    (∀ p r, lookupA s.results p = some r → now - r.timestamp > MAX_TASK →
      lookupA (sweepTick now s).results p = none) ∧
    (∀ c b, lookupA s.captureBuffers c = some b → now - b.createdAt > MAX_TASK →
      lookupA (sweepTick now s).captureBuffers c = none) ∧
    (∀ i ps, lookupA s.preSelfies i = some ps → now - ps.createdAt > MAX_PRESELFIE →
      lookupA (sweepTick now s).preSelfies i = none) ∧
    (∀ l g, lookupA s.generatedLinks l = some g → now - g.createdAt > MAX_PRESELFIE →
      lookupA (sweepTick now s).generatedLinks l = none) ∧
    (∀ ph i ps, lookupA (sweepTick now s).phonePreselfieMap ph = some i →
      lookupA s.preSelfies i = some ps → ¬ now - ps.createdAt > MAX_PRESELFIE) ∧
    (∀ ns p t, lookupA s.tasks p = some t → (∀ n ∈ ns, ¬ n - t.timestamp > MAX_TASK) →
      lookupA (sweepMany ns s).tasks p = some t) ∧
    (∀ ns p r, lookupA s.results p = some r → (∀ n ∈ ns, ¬ n - r.timestamp > MAX_TASK) →
      lookupA (sweepMany ns s).results p = some r) ∧
    (∀ ns c b, lookupA s.captureBuffers c = some b →
      (∀ n ∈ ns, ¬ n - b.createdAt > MAX_TASK) →
      lookupA (sweepMany ns s).captureBuffers c = some b) ∧
    (∀ ns i ps, lookupA s.preSelfies i = some ps →
      (∀ n ∈ ns, ¬ n - ps.createdAt > MAX_PRESELFIE) →
      lookupA (sweepMany ns s).preSelfies i = some ps) ∧
    (∀ ns l g, lookupA s.generatedLinks l = some g →
      (∀ n ∈ ns, ¬ n - g.createdAt > MAX_PRESELFIE) →
      lookupA (sweepMany ns s).generatedLinks l = some g) := by
  refine ⟨?_, ?_, ?_, ?_, ?_, ?_,
    fun ns p t hl hy => sweepMany_tasks_keep ns s p t hl hy,
    fun ns p r hl hy => sweepMany_results_keep ns s p r hl hy,
    fun ns c b hl hy => sweepMany_buffers_keep ns s c b hl hy,
    fun ns i ps hl hy => sweepMany_preselfies_keep ns s i ps hl hy,
    fun ns l g hl hy => sweepMany_links_keep ns s l g hl hy⟩
  · intro p t hl hold
    constructor
    · apply lookupA_filter_none _ _ _ _ hT hl
      simp [hold]
    · apply lookupA_filter_none_keyonly
      intro v
      simp [hl, hold]
  · intro p r hl hold
    apply lookupA_filter_none _ _ _ _ hR hl
    simp [hold]
  · intro c b hl hold
    apply lookupA_filter_none _ _ _ _ hB hl
    simp [hold]
  · intro i ps hl hold
    apply lookupA_filter_none _ _ _ _ hP hl
    simp [hold]
  · intro l g hl hold
    apply lookupA_filter_none _ _ _ _ hL hl
    simp [hold]
  · intro ph i ps hpost hps
    have hq := lookupA_filter_prop _ _ _ _ hpost
    simp only [hps] at hq
    intro hold
    simp [hold] at hq

/-- The state after `submitTask("555", realIp 9.9.9.9)` at time 0
followed by `postResult("555", "tok")` at time 0: the result holds the
key, the task is retired, and the IP association remains. -/
def c8Trace : ServerState :=
  (postResult (postTask emptyState "555" ⟨"u1", "t1", "9.9.9.9", "", "", "", "", none⟩ 0).state
    "555" ⟨"tok", "", "", none⟩ 0).state

/-- C8 counterexample: at the sweep tick 31 minutes later the result
entry (age 31 min > 30 min) is gone, but the equally old IP-store entry
for `555` is still present — IP associations carry no timestamp and are
deleted only together with an expiring task, so this one outlives its
30-minute max-age (and every later sweep). -/
theorem sweep_ip_counterexample :
    lookupA c8Trace.phoneIpMap "555" = some "9.9.9.9" ∧
    lookupA (sweepTick (31 * 60 * 1000) c8Trace).phoneIpMap "555" = some "9.9.9.9" ∧
    lookupA (sweepTick (31 * 60 * 1000) c8Trace).results "555" = none ∧
    lookupA (sweepTick (31 * 60 * 1000) c8Trace).tasks "555" = none := by
  exact ⟨rfl, rfl, rfl, rfl⟩

/-- Witness for C8 (amended) at concrete inputs: the 31-minute sweep
removes the result posted at time 0, while early sweeps (1 s and 2 s)
keep it unchanged. -/
theorem sweep_spec_witness :
    lookupA (sweepTick (31 * 60 * 1000) c8Trace).results "555" = none ∧
    lookupA (sweepMany [1000, 2000] c8Trace).results "555"
      = some ⟨"tok", "completed", "9.9.9.9", 0, false, none⟩ := by
  have h := sweep_spec c8Trace (31 * 60 * 1000)
    (by unfold NodupKeys; decide) (by unfold NodupKeys; decide) (by unfold NodupKeys; decide)
    (by unfold NodupKeys; decide) (by unfold NodupKeys; decide)
  refine ⟨h.2.1 "555" ⟨"tok", "completed", "9.9.9.9", 0, false, none⟩ rfl (by decide), ?_⟩
  exact h.2.2.2.2.2.2.2.1 [1000, 2000] "555"
    ⟨"tok", "completed", "9.9.9.9", 0, false, none⟩ rfl (by decide)
